import Mathlib

/-!
Verification of the csvalid CSV schema validator.

The development shallowly embeds the two source files of the repository:

* `src/checks.js` — the Rule Engine: `checkCell` takes one cell and the
  column definition from the schema and returns a list of diagnostic
  message strings.
* `src/index.js` — the Validation Driver: per-record row counting,
  skip-row handling, blank-line detection, the latched expected column
  count, and dispatch of every configured column to `checkCell`.

Cells reaching `checkCell` from the driver are JavaScript values that are
either a string or `undefined` (`rec[idx]` on a short row), so cells are
modelled as `Option String` with `none` standing for `undefined`.  The
checks that crash on `undefined` (`Buffer.from(undefined)`,
`undefined.trim()`) are modelled with `Except Unit`.

Numbers produced by `parseInt` / `parseFloat` are modelled by `JSNum`:
`nan`, signed infinity, or a finite value carried as an exact rational.
The IEEE-754 overflow threshold (values of magnitude at least
2^1024 − 2^970 round to infinity) is modelled exactly; rounding of finite
values to the nearest double is not modelled (finite values are kept as
exact rationals), and the JavaScript whitespace set is modelled by the
common ASCII whitespace characters plus NBSP and the BOM.
-/

set_option maxRecDepth 8000

namespace Csvalid

/-! ## JavaScript numbers and numeric parsing -/

/-- The result of a JavaScript numeric parse: `NaN`, a signed infinity, or
a finite value (represented as an exact rational). -/
inductive JSNum where
  | nan
  | inf (neg : Bool)
  | fin (q : ℚ)
deriving DecidableEq

/-- Smallest magnitude that rounds to an IEEE-754 double infinity: the
midpoint between the largest finite double (2^1024 − 2^971) and 2^1024,
which ties-to-even resolves upward to infinity. -/
def dblOverflowNat : Nat := 2 ^ 1024 - 2 ^ 970

/-- JavaScript `isFinite` on a parse result. -/
def JSNum.isFinite : JSNum → Bool
  | .fin _ => true
  | _ => false

/-- JavaScript `x >= m` for a parse result `x` and a finite numeric bound
`m` (`NaN` compares false). -/
def JSNum.geQ : JSNum → ℚ → Bool
  | .nan, _ => false
  | .inf neg, _ => !neg
  | .fin q, m => decide (m ≤ q)

/-- JavaScript `x <= m` for a parse result `x` and a finite numeric bound
`m` (`NaN` compares false). -/
def JSNum.leQ : JSNum → ℚ → Bool
  | .nan, _ => false
  | .inf neg, _ => neg
  | .fin q, m => decide (q ≤ m)

/-- JavaScript `x < m`, used to phrase "the parsed value violates the
minimum bound". -/
def JSNum.ltQ : JSNum → ℚ → Bool
  | .nan, _ => false
  | .inf neg, _ => neg
  | .fin q, m => decide (q < m)

/-- JavaScript `x > m`, used to phrase "the parsed value violates the
maximum bound". -/
def JSNum.gtQ : JSNum → ℚ → Bool
  | .nan, _ => false
  | .inf neg, _ => !neg
  | .fin q, m => decide (m < q)

/-- JavaScript `StrWhiteSpace` characters skipped by `parseInt` and
`parseFloat` (ASCII whitespace, NBSP, BOM). -/
def jsWhite (c : Char) : Bool :=
  c == ' ' || c == '\t' || c == '\n' || c == '\r' || c == '\x0b' || c == '\x0c' ||
    c.toNat == 0xA0 || c.toNat == 0xFEFF

/-- Value of a decimal digit character, if it is one. -/
def decDigit (c : Char) : Option Nat :=
  if '0' ≤ c ∧ c ≤ '9' then some (c.toNat - '0'.toNat) else none

/-- Value of a hexadecimal digit character, if it is one. -/
def hexDigit (c : Char) : Option Nat :=
  if '0' ≤ c ∧ c ≤ '9' then some (c.toNat - '0'.toNat)
  else if 'a' ≤ c ∧ c ≤ 'f' then some (c.toNat - 'a'.toNat + 10)
  else if 'A' ≤ c ∧ c ≤ 'F' then some (c.toNat - 'A'.toNat + 10)
  else none

/-- Digit value in base 10 or 16. -/
def digitVal (base : Nat) (c : Char) : Option Nat :=
  if base = 16 then hexDigit c else decDigit c

/-- Longest prefix of digit values in the given base, with the rest of the
input. -/
def takeDigitVals (base : Nat) : List Char → List Nat × List Char
  | [] => ([], [])
  | c :: cs =>
    match digitVal base c with
    | some d =>
      let (ds, rest) := takeDigitVals base cs
      (d :: ds, rest)
    | none => ([], c :: cs)

/-- Numeric value of a digit-value list, most significant first. -/
def digitsToNat (base : Nat) (ds : List Nat) : Nat :=
  ds.foldl (fun a d => a * base + d) 0

/-- Strip an optional leading sign; returns whether the sign was a minus. -/
def signSplit : List Char → Bool × List Char
  | '-' :: r => (true, r)
  | '+' :: r => (false, r)
  | cs => (false, cs)

/-- JavaScript `parseInt(s)` with the default radix: skip leading
whitespace, take an optional sign, switch to hexadecimal after a `0x` or
`0X` prefix, then read the longest digit prefix.  No digits give `NaN`;
a value of magnitude at least `dblOverflowNat` gives an infinity. -/
def jsParseInt (s : String) : JSNum :=
  let cs := s.data.dropWhile jsWhite
  let (neg, cs1) := signSplit cs
  let (base, cs2) :=
    match cs1 with
    | '0' :: 'x' :: r => (16, r)
    | '0' :: 'X' :: r => (16, r)
    | _ => (10, cs1)
  let (ds, _) := takeDigitVals base cs2
  if ds.isEmpty then .nan
  else
    let v := digitsToNat base ds
    if v < dblOverflowNat then
      .fin (mkRat (if neg then -(Int.ofNat v) else Int.ofNat v) 1)
    else .inf neg

/-- Character-list prefix test. -/
def startsWithChars : List Char → List Char → Bool
  | [], _ => true
  | _ :: _, [] => false
  | p :: ps, c :: cs => p == c && startsWithChars ps cs

/-- The double overflow threshold as a rational. -/
def dblOverflowQ : ℚ := mkRat (Int.ofNat dblOverflowNat) 1

/-- JavaScript `parseFloat(s)`: skip leading whitespace, take an optional
sign, then the longest prefix that is `Infinity` or a decimal literal
(`digits [. digits] [exponent]` or `. digits [exponent]`).  No valid
prefix gives `NaN`; a value of magnitude at least `dblOverflowNat` gives
an infinity.  Finite values are kept exact. -/
def jsParseFloat (s : String) : JSNum :=
  let cs := s.data.dropWhile jsWhite
  let (neg, cs1) := signSplit cs
  if startsWithChars "Infinity".data cs1 then .inf neg
  else
    let (ip, cs2) := takeDigitVals 10 cs1
    let (hasDot, fp, cs3) :=
      match cs2 with
      | '.' :: r =>
        let (f, r2) := takeDigitVals 10 r
        (true, f, r2)
      | _ => (false, ([] : List Nat), cs2)
    if ip.isEmpty && (!hasDot || fp.isEmpty) then .nan
    else
      let ex : Int :=
        match cs3 with
        | c :: r =>
          if c == 'e' || c == 'E' then
            let (eneg, r2) := signSplit r
            let (eds, _) := takeDigitVals 10 r2
            if eds.isEmpty then 0
            else if eneg then -(digitsToNat 10 eds : Int) else (digitsToNat 10 eds : Int)
          else 0
        | [] => 0
      let digits : Int := Int.ofNat (digitsToNat 10 (ip ++ fp))
      let sgnDigits : Int := if neg then -digits else digits
      let scale : Int := ex - Int.ofNat fp.length
      let v : ℚ :=
        if 0 ≤ scale then mkRat (sgnDigits * Int.ofNat (10 ^ scale.toNat)) 1
        else mkRat sgnDigits (10 ^ (-scale).toNat)
      if dblOverflowQ ≤ v || v ≤ -dblOverflowQ then .inf neg else .fin v

/-- `parseInt` applied to a driver cell: `undefined` is coerced to the
string `"undefined"` first, exactly as JavaScript does. -/
def jsParseIntU : Option String → JSNum
  | some s => jsParseInt s
  | none => jsParseInt "undefined"

/-- `parseFloat` applied to a driver cell, with the same `undefined`
coercion. -/
def jsParseFloatU : Option String → JSNum
  | some s => jsParseFloat s
  | none => jsParseFloat "undefined"

/-! ## JavaScript string comparison and byte encodings -/

/-- UTF-16 code units of a string, the sequence JavaScript relational
operators compare. -/
def utf16Units (s : String) : List Nat :=
  s.data.foldr
    (fun c acc =>
      if c.toNat < 0x10000 then c.toNat :: acc
      else
        (0xD800 + (c.toNat - 0x10000) / 0x400) ::
          (0xDC00 + (c.toNat - 0x10000) % 0x400) :: acc)
    []

/-- Lexicographic strict order on code-unit lists. -/
def unitsLt : List Nat → List Nat → Bool
  | _, [] => false
  | [], _ :: _ => true
  | a :: as, b :: bs => if a < b then true else if b < a then false else unitsLt as bs

/-- JavaScript `a < b` on strings (UTF-16 code-unit lexicographic). -/
def jsStrLt (a b : String) : Bool := unitsLt (utf16Units a) (utf16Units b)

/-- JavaScript `a >= b` on strings. -/
def jsStrGe (a b : String) : Bool := !jsStrLt a b

/-- JavaScript `a <= b` on strings. -/
def jsStrLe (a b : String) : Bool := !jsStrLt b a

/-- JavaScript `cell >= bound` where `cell` may be `undefined`: a
relational comparison of `undefined` against a string is always false. -/
def strGeU : Option String → String → Bool
  | some s, t => jsStrGe s t
  | none, _ => false

/-- JavaScript `cell <= bound` where `cell` may be `undefined`. -/
def strLeU : Option String → String → Bool
  | some s, t => jsStrLe s t
  | none, _ => false

/-- UTF-8 encoding of one character, as byte values. -/
def utf8Char (c : Char) : List Nat :=
  let v := c.toNat
  if v < 0x80 then [v]
  else if v < 0x800 then [0xC0 + v / 0x40, 0x80 + v % 0x40]
  else if v < 0x10000 then
    [0xE0 + v / 0x1000, 0x80 + v / 0x40 % 0x40, 0x80 + v % 0x40]
  else
    [0xF0 + v / 0x40000, 0x80 + v / 0x1000 % 0x40, 0x80 + v / 0x40 % 0x40, 0x80 + v % 0x40]

/-- UTF-8 bytes of a string, as produced by `Buffer.from(cell)`. -/
def utf8Bytes (s : String) : List Nat := s.data.flatMap utf8Char

/-- Whether some byte of the cell lies outside the printable 7-bit ASCII
range 0x20–0x7E. -/
def hasBadByte (s : String) : Bool :=
  (utf8Bytes s).any (fun b => decide (b < 0x20) || decide (0x7E < b))

/-! ## The Rule Engine (`src/checks.js`) -/

/-- A numeric, string, or absent bound, following the `typeof` dispatch on
`minVal` / `maxVal` in `checkCell` (any other type behaves as absent). -/
inductive JSBound where
  | num (m : ℚ)
  | str (t : String)
  | absent

/-- One column's rule configuration from the schema file, with the field
names of `src/checks.js`.  `regex` models a present, well-formed pattern
by its compiled match function (`RegExp.prototype.test`); `none` covers an
absent (or falsy empty-string) pattern.  A malformed pattern — on which
`new RegExp` would throw — is a caller contract violation and is outside
this type. -/
structure ColDef where
  isEmpty : Bool := false
  noEmpty : Bool := false
  isAscii : Bool := false
  isTrim : Bool := false
  regex : Option (String → Bool) := none
  isInt : Bool := false
  isFloat : Bool := false
  minVal : JSBound := .absent
  maxVal : JSBound := .absent

/-- Emptiness block of `checkCell`: `isEmpty` is checked first and
`noEmpty` only in its `else` branch.  Note `undefined !== ''` is true and
`undefined === ''` is false. -/
def emptinessMsgs (cell : Option String) (d : ColDef) : List String :=
  if d.isEmpty then
    if cell ≠ some "" then ["isn\x27t empty when it should be"] else []
  else if d.noEmpty then
    if cell = some "" then ["is empty when it shouldn\x27t be"] else []
  else []

/-- ASCII block of `checkCell`, string case: the byte loop pushes one
message and breaks at the first offending byte. -/
def asciiListStr (s : String) (d : ColDef) : List String :=
  if d.isAscii then
    if hasBadByte s then ["contains characters other than 7-bit ASCII printing characters"]
    else []
  else []

/-- ASCII block of `checkCell`: `Buffer.from(undefined)` raises a
`TypeError`, so an `undefined` cell with `isAscii` set crashes. -/
def asciiMsgs : Option String → ColDef → Except Unit (List String)
  | none, d => if d.isAscii then .error () else .ok []
  | some s, d => .ok (asciiListStr s d)

/-- Trim block of `checkCell`, string case.  `String.trim` models the
JavaScript trim over the common whitespace characters. -/
def trimListStr (s : String) (d : ColDef) : List String :=
  if d.isTrim then
    if s ≠ s.trim then ["contains leading or trailing whitespace"] else []
  else []

/-- Trim block of `checkCell`: `undefined.trim()` raises a `TypeError`. -/
def trimMsgs : Option String → ColDef → Except Unit (List String)
  | none, d => if d.isTrim then .error () else .ok []
  | some s, d => .ok (trimListStr s d)

/-- Subject string of the regex test: `RegExp.prototype.test` coerces an
`undefined` argument to the string `"undefined"`. -/
def regexSubject : Option String → String
  | some s => s
  | none => "undefined"

/-- Regex block of `checkCell`. -/
def regexMsgs (cell : Option String) (d : ColDef) : List String :=
  match d.regex with
  | some test =>
    if test (regexSubject cell) = false then ["does not match regular expression"] else []
  | none => []

/-- Integer block of `checkCell`: message unless `isFinite(parseInt(cell))`. -/
def intMsgs (cell : Option String) (d : ColDef) : List String :=
  if d.isInt then
    if (jsParseIntU cell).isFinite then [] else ["is not a finite integer"]
  else []

/-- Float block of `checkCell`: message unless `isFinite(parseFloat(cell))`. -/
def floatMsgs (cell : Option String) (d : ColDef) : List String :=
  if d.isFloat then
    if (jsParseFloatU cell).isFinite then [] else ["is not a finite floating-point number"]
  else []

/-- Minimum-bound block of `checkCell`: numeric bounds compare
`parseFloat(cell)`, string bounds compare the raw cell. -/
def minMsgs (cell : Option String) (d : ColDef) : List String :=
  match d.minVal with
  | .num m =>
    if (jsParseFloatU cell).geQ m then [] else ["is below minimum numeric value or is not a number"]
  | .str t =>
    if strGeU cell t then [] else ["sorts before minimum string value"]
  | .absent => []

/-- Maximum-bound block of `checkCell`, symmetric to the minimum. -/
def maxMsgs (cell : Option String) (d : ColDef) : List String :=
  match d.maxVal with
  | .num m =>
    if (jsParseFloatU cell).leQ m then [] else ["is above maximum numeric value or is not a number"]
  | .str t =>
    if strLeU cell t then [] else ["sorts after maximum string value"]
  | .absent => []

/-- The Rule Engine `checkCell` of `src/checks.js`: the eight blocks run
in source order and their messages are concatenated.  A thrown
`TypeError` (possible only for an `undefined` cell, in the ASCII block
first and otherwise in the trim block) discards the messages gathered so
far, matching the crash of the real function. -/
def checkCell (cell : Option String) (d : ColDef) : Except Unit (List String) :=
  match asciiMsgs cell d, trimMsgs cell d with
  | .ok a, .ok t =>
    .ok (emptinessMsgs cell d ++ a ++ t ++ regexMsgs cell d ++ intMsgs cell d ++
      floatMsgs cell d ++ minMsgs cell d ++ maxMsgs cell d)
  | .error e, _ => .error e
  | .ok _, .error e => .error e

/-- Message list produced by `checkCell` on a string cell (the engine's
documented contract, where it never throws). -/
def cellMsgs (s : String) (d : ColDef) : List String :=
  (checkCell (some s) d).toOption.getD []

/-! ## The Validation Driver (`src/index.js`) -/

/-- One parsed record from the tokenizer: an ordered field list in
positional mode, or a header-keyed object (kept as an ordered association
list with distinct keys) in named mode. -/
inductive Record where
  | pos (fields : List String)
  | named (pairs : List (String × String))

/-- Column label of a cell-level diagnostic: the 1-based index printed as
`Col n`, or the column name printed as `Col 'name'`. -/
inductive ColLabel where
  | idx (i : Nat)
  | name (s : String)
deriving DecidableEq

/-- One diagnostic line: the row number, the column label (`none` for a
row-level diagnostic), and the message text. -/
structure Diag where
  row : Nat
  col : Option ColLabel
  msg : String
deriving DecidableEq

/-- The schema document: `columns` (optional expected count), `skipRows`
(optional), and `columnDefs` as either an array (positional mode) or an
object (named mode, kept as an ordered association list). -/
structure Schema where
  columns : Option Nat := none
  skipRows : Option Nat := none
  columnDefs : List ColDef ⊕ List (String × ColDef)

/-- `namedColumnMode = !Array.isArray(schema.columnDefs)`. -/
def Schema.namedMode (sch : Schema) : Bool := sch.columnDefs.isRight

/-- Mutable driver state: the running row counter and the latched
`colsShould`. -/
structure DriverState where
  row : Nat
  colsShould : Option Nat

/-- Initial driver state: `row` is 1 in named mode (row 1 is the header
the tokenizer consumed) and 0 otherwise; `colsShould` starts as
`schema.columns`. -/
def initState (sch : Schema) : DriverState :=
  ⟨if sch.namedMode then 1 else 0, sch.columns⟩

/-- JavaScript `row <= schema.skipRows`: false when `skipRows` is absent
(a comparison against `undefined`). -/
def jsLeNum (row : Nat) : Option Nat → Bool
  | some k => decide (row ≤ k)
  | none => false

/-- JavaScript truthiness test `!colsShould` on the latched count:
`undefined` and `0` are falsy. -/
def jsFalsyNat : Option Nat → Bool
  | none => true
  | some 0 => true
  | some _ => false

/-- `isRowBlank` of `src/index.js`: exactly one field and it is the empty
string (for named records, exactly one key whose value is empty). -/
def isRowBlank : Record → Bool
  | .pos fs => fs.length == 1 && fs.headD "x" == ""
  | .named ps => ps.length == 1 && (ps.headD ("", "x")).2 == ""

/-- `colsThis`: `rec.length` for an array record, `Object.keys(rec).length`
for an object record. -/
def recFieldCount : Record → Nat
  | .pos fs => fs.length
  | .named ps => ps.length

/-- `rec[idx]` for the positional loop: `undefined` past the end of the
field list, and `undefined` for a numeric index into an object record. -/
def posGet : Record → Nat → Option String
  | .pos fs, i => fs.get? i
  | .named _, _ => none

/-- `rec[key]` for the named loop: association-list lookup, `undefined`
for a missing key or for a string key into an array record. -/
def namedGet : Record → String → Option String
  | .named ps, k => ps.lookup k
  | .pos _, _ => none

/-- Per-column dispatch loop: run `checkCell` on each configured column in
order and label each returned message.  A `TypeError` escaping `checkCell`
aborts the loop (and the run): the diagnostics already written stay
written, the crash is the `true` flag. -/
def emitCells (row : Nat) : List (ColLabel × Option String × ColDef) → List Diag × Bool
  | [] => ([], false)
  | item :: rest =>
    match checkCell item.2.1 item.2.2 with
    | .error _ => ([], true)
    | .ok msgs =>
      let p := emitCells row rest
      (msgs.map (fun m => ⟨row, some item.1, m⟩) ++ p.1, p.2)

/-- Cell-level diagnostics of one record: positional mode iterates
`columnDefs` with 1-based labels, named mode iterates the object entries
per key. -/
def cellDiags (row : Nat) (sch : Schema) (rec : Record) : List Diag × Bool :=
  match sch.columnDefs with
  | .inl defs =>
    emitCells row (defs.enum.map (fun p => (ColLabel.idx (p.1 + 1), posGet rec p.1, p.2)))
  | .inr defs =>
    emitCells row (defs.map (fun p => (ColLabel.name p.1, namedGet rec p.1, p.2)))

/-- Text of the structural mismatch diagnostic. -/
def mismatchMsg (expected found : Nat) : String :=
  "inconsistent column count, expected " ++ toString expected ++ ", found " ++ toString found

/-- One iteration of the `readable` loop of `src/index.js`: increment the
row counter; skip while `row <= skipRows`; compute `colsThis` and latch
`colsShould` if it is falsy; report a blank line and stop; otherwise report
a column-count mismatch if any and run the cell checks.  Returns the new
state, the diagnostics written, and whether the iteration crashed. -/
def processRecord (sch : Schema) (st : DriverState) (rec : Record) :
    DriverState × List Diag × Bool :=
  let row := st.row + 1
  if jsLeNum row sch.skipRows then (⟨row, st.colsShould⟩, [], false)
  else
    let colsThis := recFieldCount rec
    let colsShould := if jsFalsyNat st.colsShould then some colsThis else st.colsShould
    let st1 : DriverState := ⟨row, colsShould⟩
    if isRowBlank rec then (st1, [⟨row, none, "is a blank line"⟩], false)
    else
      let structDiags : List Diag :=
        if colsThis ≠ colsShould.getD 0 then
          [⟨row, none, mismatchMsg (colsShould.getD 0) colsThis⟩]
        else []
      (st1, structDiags ++ (cellDiags row sch rec).1, (cellDiags row sch rec).2)

/-- A whole run over a record sequence: fold `processRecord`, stopping at
a crash (the process dies on an uncaught `TypeError`). -/
def runRecords (sch : Schema) (st : DriverState) : List Record → DriverState × List Diag × Bool
  | [] => (st, [], false)
  | r :: rs =>
    let p := processRecord sch st r
    if p.2.2 then p
    else
      let q := runRecords sch p.1 rs
      (q.1, p.2.1 ++ q.2.1, q.2.2)

/-! ## Basic lemmas about the Rule Engine -/

/-- On a string cell the engine never throws, so `cellMsgs` is the
concatenation of the eight blocks in source order. -/
theorem cellMsgs_eq (s : String) (d : ColDef) :
    cellMsgs s d =
      emptinessMsgs (some s) d ++ asciiListStr s d ++ trimListStr s d ++
        regexMsgs (some s) d ++ intMsgs (some s) d ++ floatMsgs (some s) d ++
        minMsgs (some s) d ++ maxMsgs (some s) d := rfl

/-- Membership in the emptiness block. -/
theorem mem_emptinessMsgs {m : String} {cell : Option String} {d : ColDef} :
    m ∈ emptinessMsgs cell d ↔
      (d.isEmpty = true ∧ cell ≠ some "" ∧ m = "isn\x27t empty when it should be") ∨
        (d.isEmpty = false ∧ d.noEmpty = true ∧ cell = some "" ∧
          m = "is empty when it shouldn\x27t be") := by
  rcases d with ⟨ie, ne, ia, it, rg, ii, fl, mn, mx⟩
  cases ie <;> cases ne <;> by_cases hc : cell = some "" <;> simp [emptinessMsgs, hc]

/-- Membership in the ASCII block (string cell). -/
theorem mem_asciiListStr {m s : String} {d : ColDef} :
    m ∈ asciiListStr s d ↔
      d.isAscii = true ∧ hasBadByte s = true ∧
        m = "contains characters other than 7-bit ASCII printing characters" := by
  rcases d with ⟨ie, ne, ia, it, rg, ii, fl, mn, mx⟩
  cases ia <;> cases hb : hasBadByte s <;> simp [asciiListStr, hb]

/-- Membership in the trim block (string cell). -/
theorem mem_trimListStr {m s : String} {d : ColDef} :
    m ∈ trimListStr s d ↔
      d.isTrim = true ∧ s ≠ s.trim ∧ m = "contains leading or trailing whitespace" := by
  rcases d with ⟨ie, ne, ia, it, rg, ii, fl, mn, mx⟩
  cases it with
  | false => simp [trimListStr]
  | true =>
    by_cases ht : s = s.trim
    · simp [trimListStr, ht.symm]
    · simp [trimListStr, ht]

/-- Membership in the regex block. -/
theorem mem_regexMsgs {m : String} {cell : Option String} {d : ColDef} :
    m ∈ regexMsgs cell d ↔
      ∃ f, d.regex = some f ∧ f (regexSubject cell) = false ∧
        m = "does not match regular expression" := by
  rcases d with ⟨ie, ne, ia, it, rg, ii, fl, mn, mx⟩
  cases rg with
  | none => simp [regexMsgs]
  | some f => cases hf : f (regexSubject cell) <;> simp [regexMsgs, hf]

/-- Membership in the integer block. -/
theorem mem_intMsgs {m : String} {cell : Option String} {d : ColDef} :
    m ∈ intMsgs cell d ↔
      d.isInt = true ∧ (jsParseIntU cell).isFinite = false ∧ m = "is not a finite integer" := by
  rcases d with ⟨ie, ne, ia, it, rg, ii, fl, mn, mx⟩
  cases ii <;> cases hI : (jsParseIntU cell).isFinite <;> simp [intMsgs, hI]

/-- Membership in the float block. -/
theorem mem_floatMsgs {m : String} {cell : Option String} {d : ColDef} :
    m ∈ floatMsgs cell d ↔
      d.isFloat = true ∧ (jsParseFloatU cell).isFinite = false ∧
        m = "is not a finite floating-point number" := by
  rcases d with ⟨ie, ne, ia, it, rg, ii, fl, mn, mx⟩
  cases fl <;> cases hF : (jsParseFloatU cell).isFinite <;> simp [floatMsgs, hF]

/-- Membership in the minimum-bound block. -/
theorem mem_minMsgs {m : String} {cell : Option String} {d : ColDef} :
    m ∈ minMsgs cell d ↔
      (∃ q, d.minVal = .num q ∧ (jsParseFloatU cell).geQ q = false ∧
        m = "is below minimum numeric value or is not a number") ∨
      (∃ t, d.minVal = .str t ∧ strGeU cell t = false ∧
        m = "sorts before minimum string value") := by
  rcases d with ⟨ie, ne, ia, it, rg, ii, fl, mn, mx⟩
  cases mn with
  | absent => simp [minMsgs]
  | num q => cases hg : (jsParseFloatU cell).geQ q <;> simp [minMsgs, hg]
  | str t => cases hs : strGeU cell t <;> simp [minMsgs, hs]

/-- Membership in the maximum-bound block. -/
theorem mem_maxMsgs {m : String} {cell : Option String} {d : ColDef} :
    m ∈ maxMsgs cell d ↔
      (∃ q, d.maxVal = .num q ∧ (jsParseFloatU cell).leQ q = false ∧
        m = "is above maximum numeric value or is not a number") ∨
      (∃ t, d.maxVal = .str t ∧ strLeU cell t = false ∧
        m = "sorts after maximum string value") := by
  rcases d with ⟨ie, ne, ia, it, rg, ii, fl, mn, mx⟩
  cases mx with
  | absent => simp [maxMsgs]
  | num q => cases hg : (jsParseFloatU cell).leQ q <;> simp [maxMsgs, hg]
  | str t => cases hs : strLeU cell t <;> simp [maxMsgs, hs]

/-- Reading of `hasBadByte` as the existence of an offending byte. -/
theorem hasBadByte_iff {s : String} :
    hasBadByte s = true ↔ ∃ b ∈ utf8Bytes s, b < 0x20 ∨ 0x7E < b := by
  simp [hasBadByte]

/-! ## Claim theorems for the Rule Engine -/

/-- C7: on every string cell and every well-formed rule configuration the
Rule Engine is total and deterministic: `checkCell` returns `ok` (it never
throws), and the returned message sequence is the value of the function
`cellMsgs` of the cell and the rule, so two invocations with the same
arguments return the same messages.  (A well-formed configuration is one
whose `regex`, if present, is a compiled pattern; a malformed pattern
string is excluded by the `ColDef` type, matching the caller contract.) -/
theorem checkCell_total_deterministic :
    ∀ (s : String) (d : ColDef), checkCell (some s) d = .ok (cellMsgs s d) :=
  fun _ _ => rfl

/-- C10: a rule configuration with every field absent produces no message
on any cell. -/
theorem checkCell_no_rules_no_messages :
    ∀ s : String, cellMsgs s {} = [] :=
  fun _ => rfl

/-- C4: with `requireEmpty` set, the engine returns the emptiness message
exactly on non-empty cells, and the `requireNonEmpty` message can never
appear (the `noEmpty` check sits in the `else` branch of `isEmpty`). -/
theorem checkCell_requireEmpty (s : String) (d : ColDef) (h : d.isEmpty = true) :
    (("isn\x27t empty when it should be") ∈ cellMsgs s d ↔ s ≠ "") ∧
      ("is empty when it shouldn\x27t be") ∉ cellMsgs s d := by
  rw [cellMsgs_eq]
  simp [List.mem_append, mem_emptinessMsgs, mem_asciiListStr, mem_trimListStr, mem_regexMsgs,
    mem_intMsgs, mem_floatMsgs, mem_minMsgs, mem_maxMsgs, h]

/-- Rule configuration with both emptiness requirements set, for the C4
witness. -/
def dBothEmpty : ColDef := { isEmpty := true, noEmpty := true }

/-- Witness for C4 at the cell `"x"` with both `requireEmpty` and
`requireNonEmpty` set. -/
theorem checkCell_requireEmpty_witness :
    dBothEmpty.isEmpty = true ∧
      ((("isn\x27t empty when it should be") ∈ cellMsgs "x" dBothEmpty ↔ "x" ≠ "") ∧
        ("is empty when it shouldn\x27t be") ∉ cellMsgs "x" dBothEmpty) ∧
      cellMsgs "x" dBothEmpty = ["isn\x27t empty when it should be"] :=
  ⟨rfl, checkCell_requireEmpty "x" dBothEmpty rfl, by decide⟩

/-- C8: with `requireAscii` set, the engine emits the ASCII message exactly
once when some byte of the cell's UTF-8 encoding lies outside 0x20–0x7E,
and not at all otherwise (the byte loop breaks at the first offender). -/
theorem checkCell_ascii_single_message (s : String) (d : ColDef) (h : d.isAscii = true) :
    (cellMsgs s d).count "contains characters other than 7-bit ASCII printing characters" =
      if ∃ b ∈ utf8Bytes s, b < 0x20 ∨ 0x7E < b then 1 else 0 := by
  rw [cellMsgs_eq]
  simp only [List.count_append]
  have e1 : (emptinessMsgs (some s) d).count
      "contains characters other than 7-bit ASCII printing characters" = 0 :=
    List.count_eq_zero.mpr (by simp [mem_emptinessMsgs])
  have e3 : (trimListStr s d).count
      "contains characters other than 7-bit ASCII printing characters" = 0 :=
    List.count_eq_zero.mpr (by simp [mem_trimListStr])
  have e4 : (regexMsgs (some s) d).count
      "contains characters other than 7-bit ASCII printing characters" = 0 :=
    List.count_eq_zero.mpr (by simp [mem_regexMsgs])
  have e5 : (intMsgs (some s) d).count
      "contains characters other than 7-bit ASCII printing characters" = 0 :=
    List.count_eq_zero.mpr (by simp [mem_intMsgs])
  have e6 : (floatMsgs (some s) d).count
      "contains characters other than 7-bit ASCII printing characters" = 0 :=
    List.count_eq_zero.mpr (by simp [mem_floatMsgs])
  have e7 : (minMsgs (some s) d).count
      "contains characters other than 7-bit ASCII printing characters" = 0 :=
    List.count_eq_zero.mpr (by simp [mem_minMsgs])
  have e8 : (maxMsgs (some s) d).count
      "contains characters other than 7-bit ASCII printing characters" = 0 :=
    List.count_eq_zero.mpr (by simp [mem_maxMsgs])
  have e2 : (asciiListStr s d).count
      "contains characters other than 7-bit ASCII printing characters" =
      if hasBadByte s then 1 else 0 := by
    cases hb : hasBadByte s <;> simp [asciiListStr, h, hb]
  rw [e1, e2, e3, e4, e5, e6, e7, e8]
  by_cases hb : ∃ b ∈ utf8Bytes s, b < 0x20 ∨ 0x7E < b
  · rw [if_pos hb, if_pos (hasBadByte_iff.mpr hb)]
  · rw [if_neg hb, if_neg (fun hc => hb (hasBadByte_iff.mp hc))]

/-- Rule configuration requiring printable ASCII, for the C8 witness. -/
def dAscii : ColDef := { isAscii := true }

/-- Witness for C8: the cell holding a tab and a newline has two offending
bytes but exactly one ASCII message; the cell `"ok"` has none. -/
theorem checkCell_ascii_single_message_witness :
    dAscii.isAscii = true ∧
      (cellMsgs "\t\n" dAscii).count
          "contains characters other than 7-bit ASCII printing characters" =
        (if ∃ b ∈ utf8Bytes "\t\n", b < 0x20 ∨ 0x7E < b then 1 else 0) ∧
      (cellMsgs "\t\n" dAscii).count
          "contains characters other than 7-bit ASCII printing characters" = 1 ∧
      (cellMsgs "ok" dAscii).count
          "contains characters other than 7-bit ASCII printing characters" = 0 :=
  ⟨rfl, checkCell_ascii_single_message "\t\n" dAscii rfl, by decide, by decide⟩

/-- C3: bound checks are type-coherent.  A numeric bound compares the
`parseFloat` of the cell and the message appears exactly when the parse
fails (`NaN`) or the parsed value violates the bound; a string bound
compares the raw cell by code units and the message appears exactly when
the cell sorts before the minimum (resp. after the maximum). -/
theorem checkCell_bounds_type_coherent (s : String) (d : ColDef) :
    (∀ m : ℚ, d.minVal = .num m →
      (("is below minimum numeric value or is not a number") ∈ cellMsgs s d ↔
        jsParseFloat s = .nan ∨ (jsParseFloat s).ltQ m = true)) ∧
    (∀ t : String, d.minVal = .str t →
      (("sorts before minimum string value") ∈ cellMsgs s d ↔ jsStrLt s t = true)) ∧
    (∀ m : ℚ, d.maxVal = .num m →
      (("is above maximum numeric value or is not a number") ∈ cellMsgs s d ↔
        jsParseFloat s = .nan ∨ (jsParseFloat s).gtQ m = true)) ∧
    (∀ t : String, d.maxVal = .str t →
      (("sorts after maximum string value") ∈ cellMsgs s d ↔ jsStrLt t s = true)) := by
  refine ⟨fun m hm => ?_, fun t ht => ?_, fun m hm => ?_, fun t ht => ?_⟩ <;>
    rw [cellMsgs_eq] <;>
    simp [List.mem_append, mem_emptinessMsgs, mem_asciiListStr, mem_trimListStr, mem_regexMsgs,
      mem_intMsgs, mem_floatMsgs, mem_minMsgs, mem_maxMsgs, jsParseFloatU, jsStrGe, jsStrLe,
      strGeU, strLeU, *]
  · cases hp : jsParseFloat s with
    | nan => simp [JSNum.geQ, JSNum.ltQ]
    | inf neg => cases neg <;> simp [JSNum.geQ, JSNum.ltQ]
    | fin q => simp [JSNum.geQ, JSNum.ltQ, not_le]
  · cases hp : jsParseFloat s with
    | nan => simp [JSNum.leQ, JSNum.gtQ]
    | inf neg => cases neg <;> simp [JSNum.leQ, JSNum.gtQ]
    | fin q => simp [JSNum.leQ, JSNum.gtQ, not_le]

/-- Rule configuration with the string minimum `"b"`, for the C3 witness. -/
def dMinStr : ColDef := { minVal := .str "b" }

/-- Rule configuration with numeric bounds 2 and 4, for the C3 witness. -/
def dNumBounds : ColDef := { minVal := .num 2, maxVal := .num 4 }

/-- Witness for C3: string minimum `"b"` rejects `"a"` and accepts `"c"`;
numeric maximum 4 rejects `"5"`. -/
theorem checkCell_bounds_type_coherent_witness :
    dMinStr.minVal = .str "b" ∧
      (("sorts before minimum string value") ∈ cellMsgs "a" dMinStr ↔ jsStrLt "a" "b" = true) ∧
      ("sorts before minimum string value") ∈ cellMsgs "a" dMinStr ∧
      ("sorts before minimum string value") ∉ cellMsgs "c" dMinStr ∧
      dNumBounds.maxVal = .num 4 ∧
      (("is above maximum numeric value or is not a number") ∈ cellMsgs "5" dNumBounds ↔
        jsParseFloat "5" = .nan ∨ (jsParseFloat "5").gtQ 4 = true) ∧
      ("is above maximum numeric value or is not a number") ∈ cellMsgs "5" dNumBounds :=
  ⟨rfl, (checkCell_bounds_type_coherent "a" dMinStr).2.1 "b" rfl, by decide, by decide, rfl,
    (checkCell_bounds_type_coherent "5" dNumBounds).2.2.1 4 rfl, by decide⟩

/-- Predicate transcribed from the words of the integer claim: the cell's
content begins with an optionally-signed sequence of digits. -/
def claimIntPass (s : String) : Bool :=
  match s.data with
  | '+' :: (c :: _) => c.isDigit
  | '-' :: (c :: _) => c.isDigit
  | c :: _ => c.isDigit
  | [] => false

/-- Rule configuration requiring an integer, for the C2 theorems. -/
def dInt : ColDef := { isInt := true }

/-- Counterexample to C2 as stated: `" 42"` does not begin with a sign or
digit, yet the engine emits no message (`parseInt` skips leading
whitespace); `"0x"` begins with the digit `0`, yet the engine emits the
message (`parseInt` reads `0x` as an empty hexadecimal literal, `NaN`). -/
theorem checkCell_requireInteger_cex :
    (claimIntPass " 42" = false ∧ cellMsgs " 42" dInt = []) ∧
      (claimIntPass "0x" = true ∧ cellMsgs "0x" dInt = ["is not a finite integer"]) :=
  ⟨⟨by decide, by decide⟩, ⟨by decide, by decide⟩⟩

/-- Hexadecimal arm of the amended integer claim: a nonempty hexadecimal
digit prefix whose value is below the double overflow threshold. -/
def hexIntPass (r : List Char) : Bool :=
  let ds := (takeDigitVals 16 r).1
  !ds.isEmpty && decide (digitsToNat 16 ds < dblOverflowNat)

/-- Decimal arm of the amended integer claim. -/
def decIntPass (r : List Char) : Bool :=
  let ds := (takeDigitVals 10 r).1
  !ds.isEmpty && decide (digitsToNat 10 ds < dblOverflowNat)

/-- The amended integer claim as a predicate on the cell: after optional
leading whitespace and an optional sign, the cell begins with a nonempty
digit sequence — hexadecimal after a `0x`/`0X` prefix — whose value stays
below the IEEE-754 double overflow threshold. -/
def intPassSpec (s : String) : Bool :=
  match (signSplit (s.data.dropWhile jsWhite)).2 with
  | '0' :: 'x' :: r => hexIntPass r
  | '0' :: 'X' :: r => hexIntPass r
  | cs => decIntPass cs

/-- The amended claim predicate coincides with finiteness of the
`parseInt` result. -/
theorem intPassSpec_eq_isFinite (s : String) : intPassSpec s = (jsParseInt s).isFinite := by
  unfold intPassSpec jsParseInt
  rcases h : signSplit (s.data.dropWhile jsWhite) with ⟨neg, cs1⟩
  simp only [h]
  have base : ∀ (b : Nat) (r : List Char),
      (!((takeDigitVals b r).1).isEmpty && decide (digitsToNat b ((takeDigitVals b r).1) < dblOverflowNat)) =
        (if ((takeDigitVals b r).1).isEmpty then JSNum.nan
          else if digitsToNat b ((takeDigitVals b r).1) < dblOverflowNat then
            JSNum.fin (mkRat (if neg then -(Int.ofNat (digitsToNat b ((takeDigitVals b r).1)))
              else Int.ofNat (digitsToNat b ((takeDigitVals b r).1))) 1)
          else JSNum.inf neg).isFinite := by
    intro b r
    rcases h2 : takeDigitVals b r with ⟨ds, rest⟩
    cases ds with
    | nil => simp [JSNum.isFinite]
    | cons d0 ds0 =>
      by_cases hv : digitsToNat b (d0 :: ds0) < dblOverflowNat <;>
        simp [JSNum.isFinite, hv]
  split <;> simp only [hexIntPass, decIntPass] <;> exact base _ _

/-- C2 amended: with `requireInteger` set, the engine emits no integer
message exactly when, after optional leading whitespace and an optional
sign, the cell begins with a nonempty digit sequence (hexadecimal after a
`0x`/`0X` prefix) whose value is below the double overflow threshold. -/
theorem checkCell_requireInteger_amended (s : String) (d : ColDef) (h : d.isInt = true) :
    ("is not a finite integer") ∉ cellMsgs s d ↔ intPassSpec s = true := by
  rw [cellMsgs_eq]
  simp [List.mem_append, mem_emptinessMsgs, mem_asciiListStr, mem_trimListStr, mem_regexMsgs,
    mem_intMsgs, mem_floatMsgs, mem_minMsgs, mem_maxMsgs, h, jsParseIntU, intPassSpec_eq_isFinite]

/-- Witness for C2 amended at the cell `"42"`. -/
theorem checkCell_requireInteger_amended_witness :
    dInt.isInt = true ∧
      (("is not a finite integer") ∉ cellMsgs "42" dInt ↔ intPassSpec "42" = true) ∧
      intPassSpec "42" = true ∧ ("is not a finite integer") ∉ cellMsgs "42" dInt :=
  ⟨rfl, checkCell_requireInteger_amended "42" dInt rfl, by decide,
    (checkCell_requireInteger_amended "42" dInt rfl).mpr (by decide)⟩

/-! ## Claim theorems for the Validation Driver -/

/-- A nonzero latched count is truthy. -/
theorem jsFalsyNat_some_of_ne {n : Nat} (h : n ≠ 0) : jsFalsyNat (some n) = false := by
  cases n with
  | zero => exact absurd rfl h
  | succ k => rfl

/-- Every diagnostic produced by the per-column loop is cell-level (it
carries a column label). -/
theorem emitCells_col_ne_none (row : Nat) (items : List (ColLabel × Option String × ColDef)) :
    ∀ dg ∈ (emitCells row items).1, dg.col ≠ none := by
  induction items with
  | nil => simp [emitCells]
  | cons item rest ih =>
    simp only [emitCells]
    split
    · simp
    · intro dg hdg
      rcases List.mem_append.mp hdg with hmap | hrec
      · rcases List.mem_map.mp hmap with ⟨m, _, rfl⟩
        simp
      · exact ih dg hrec

/-- Every diagnostic produced by `cellDiags` is cell-level. -/
theorem cellDiags_col_ne_none (row : Nat) (sch : Schema) (rec : Record) :
    ∀ dg ∈ (cellDiags row sch rec).1, dg.col ≠ none := by
  unfold cellDiags
  split <;> exact emitCells_col_ne_none _ _

/-- C9: the row counter increases by exactly one on every incoming record
— skipped, blank, mismatched or crashing alike — and starts at 0 in
positional mode and at 1 in named mode. -/
theorem driver_row_counter :
    (∀ (sch : Schema) (st : DriverState) (rec : Record),
      (processRecord sch st rec).1.row = st.row + 1) ∧
    (∀ sch : Schema, (initState sch).row = if sch.namedMode then 1 else 0) := by
  constructor
  · intro sch st rec
    simp only [processRecord]
    split
    · rfl
    · split <;> rfl
  · intro sch
    rfl

/-- C5: a blank record on a non-skipped row produces exactly the single
"is a blank line" diagnostic: no structural mismatch, no cell-level
diagnostics, no crash. -/
theorem driver_blank_line (sch : Schema) (st : DriverState) (rec : Record)
    (hskip : jsLeNum (st.row + 1) sch.skipRows = false) (hblank : isRowBlank rec = true) :
    (processRecord sch st rec).2.1 = [⟨st.row + 1, none, "is a blank line"⟩] ∧
      (processRecord sch st rec).2.2 = false := by
  simp [processRecord, hskip, hblank]

/-- Schema with one `requireNonEmpty` column, for the C5 witness (the
blank row's empty cell would fail that rule if cell checks ran). -/
def schBlank : Schema := { columnDefs := .inl [{ noEmpty := true }] }

/-- Witness for C5 at the blank record `[""]`. -/
theorem driver_blank_line_witness :
    jsLeNum 1 schBlank.skipRows = false ∧ isRowBlank (.pos [""]) = true ∧
      (processRecord schBlank (initState schBlank) (.pos [""])).2.1 =
        [⟨1, none, "is a blank line"⟩] ∧
      (processRecord schBlank (initState schBlank) (.pos [""])).2.2 = false :=
  ⟨by decide, by decide,
    (driver_blank_line schBlank (initState schBlank) (.pos [""]) (by decide) (by decide)).1,
    (driver_blank_line schBlank (initState schBlank) (.pos [""]) (by decide) (by decide)).2⟩

/-- The latched count survives one record when it is nonzero. -/
theorem processRecord_colsShould (sch : Schema) (st : DriverState) (rec : Record) {n : Nat}
    (hc : st.colsShould = some n) (hn : n ≠ 0) :
    (processRecord sch st rec).1.colsShould = some n := by
  simp only [processRecord, hc, jsFalsyNat_some_of_ne hn]
  split
  · rfl
  · split <;> rfl

/-- C6 amended: once `colsShould` holds a nonzero count — from the schema
or from the first counted row — it is never changed again for the
remainder of the run. -/
theorem driver_colsShould_stable (sch : Schema) (st : DriverState) (rs : List Record) (n : Nat)
    (hc : st.colsShould = some n) (hn : n ≠ 0) :
    (runRecords sch st rs).1.colsShould = some n := by
  induction rs generalizing st with
  | nil => simpa [runRecords] using hc
  | cons r rs ih =>
    simp only [runRecords]
    split
    · exact processRecord_colsShould sch st r hc hn
    · exact ih _ (processRecord_colsShould sch st r hc hn)

/-- Schema declaring zero columns, for the C6 counterexample. -/
def schZeroCols : Schema := { columns := some 0, columnDefs := .inl [] }

/-- Counterexample to C6 as stated: an expected count established
explicitly as 0 by the schema is overwritten by the first counted row's
width, because the driver's latch tests JavaScript truthiness and 0 is
falsy. -/
theorem driver_colsShould_cex :
    schZeroCols.columns = some 0 ∧ (initState schZeroCols).colsShould = some 0 ∧
      (runRecords schZeroCols (initState schZeroCols) [.pos ["a", "b"]]).1.colsShould = some 2 :=
  ⟨rfl, rfl, by decide⟩

/-- Schema declaring three columns, for the C6 witness. -/
def schCols3 : Schema := { columns := some 3, columnDefs := .inl [] }

/-- Witness for C6 amended: the count 3 survives a short row, a full row
and a blank row. -/
theorem driver_colsShould_stable_witness :
    (initState schCols3).colsShould = some 3 ∧ (3 : Nat) ≠ 0 ∧
      (runRecords schCols3 (initState schCols3)
        [.pos ["a"], .pos ["a", "b", "c"], .pos [""]]).1.colsShould = some 3 :=
  ⟨rfl, by decide,
    driver_colsShould_stable schCols3 (initState schCols3)
      [.pos ["a"], .pos ["a", "b", "c"], .pos [""]] 3 rfl (by decide)⟩

/-- C1 amended: a non-blank, non-skipped record whose field count differs
from the (nonzero) expected count produces exactly one structural
mismatch diagnostic reporting both counts, followed by the Rule Engine's
diagnostics for every configured column — where an absent cell is passed
as the JavaScript `undefined` value, not as the empty string. -/
theorem driver_mismatch_runs_cells (sch : Schema) (st : DriverState) (rec : Record) (n : Nat)
    (hskip : jsLeNum (st.row + 1) sch.skipRows = false)
    (hblank : isRowBlank rec = false)
    (hc : st.colsShould = some n) (hn : n ≠ 0)
    (hmm : recFieldCount rec ≠ n) :
    (processRecord sch st rec).2.1 =
      ⟨st.row + 1, none, mismatchMsg n (recFieldCount rec)⟩ ::
        (cellDiags (st.row + 1) sch rec).1 ∧
      ∀ dg ∈ (cellDiags (st.row + 1) sch rec).1, dg.col ≠ none := by
  constructor
  · simp [processRecord, hskip, hblank, hc, jsFalsyNat_some_of_ne hn, hmm]
  · exact cellDiags_col_ne_none _ _ _

/-- Schema with three columns whose third requires an integer, for the C1
witness. -/
def schWit1 : Schema := { columns := some 3, columnDefs := .inl [{}, {}, { isInt := true }] }

/-- Witness for C1 amended: a two-field row against three expected columns
yields the structural diagnostic and a cell diagnostic for the absent
third cell (`parseInt(undefined)` is `NaN`). -/
theorem driver_mismatch_runs_cells_witness :
    jsLeNum 1 schWit1.skipRows = false ∧ isRowBlank (.pos ["a", "b"]) = false ∧
      (initState schWit1).colsShould = some 3 ∧ recFieldCount (.pos ["a", "b"]) ≠ 3 ∧
      (processRecord schWit1 (initState schWit1) (.pos ["a", "b"])).2.1 =
        ⟨1, none, mismatchMsg 3 2⟩ :: (cellDiags 1 schWit1 (.pos ["a", "b"])).1 ∧
      (cellDiags 1 schWit1 (.pos ["a", "b"])).1 =
        [⟨1, some (.idx 3), "is not a finite integer"⟩] :=
  ⟨by decide, by decide, rfl, by decide,
    (driver_mismatch_runs_cells schWit1 (initState schWit1) (.pos ["a", "b"]) 3
      (by decide) (by decide) rfl (by decide) (by decide)).1,
    by decide⟩

/-- Schema for the C1 counterexample: the third column requires a
non-empty cell. -/
def schCex1 : Schema := { columns := some 3, columnDefs := .inl [{}, {}, { noEmpty := true }] }

/-- Counterexample to C1 as stated: under the empty-string treatment the
absent third cell of the two-field row would fail the third column's
`requireNonEmpty` rule — the engine provably returns that message on the
empty string — yet the driver's output holds only the structural
diagnostic, because the absent cell is passed as `undefined` and
`undefined === ''` is false. -/
theorem driver_absent_cell_cex :
    (processRecord schCex1 (initState schCex1) (.pos ["a", "b"])).2.1 =
      [⟨1, none, mismatchMsg 3 2⟩] ∧
      cellMsgs "" { noEmpty := true } = ["is empty when it shouldn\x27t be"] :=
  ⟨by decide, by decide⟩

end Csvalid
